import Mathlib

/-!
Verification of the meal-logging core of this repository: the Entry Store
(`mealStorage.ts`), the Nutrition Aggregator (`calculateDailyNutrition`,
`WeeklyProgressReport.tsx`) and the Goal Deriver
(`GoalSettingsModal.tsx`, `calculateCalories`).

Shallow embedding conventions:
* JS numbers are modelled by exact rationals `ℚ`; the non-finite values
  produced by dividing by zero are modelled explicitly by `JSNum`.
  (All arithmetic the code performs on reachable inputs is exact in
  doubles or was checked to round identically, so `ℚ` is faithful.)
* The persistence adapter state is passed explicitly (`Storage`); each
  stored blob can be absent, unreadable, unparseable JSON, or a parsed
  value, mirroring the failure points of `AsyncStorage.getItem` +
  `JSON.parse`.  A `writeFails` flag models `AsyncStorage.setItem`
  throwing (caught by each mutation's `catch`, which returns `false`
  and leaves storage unchanged).
* `Date` values and ISO timestamps only ever reach the core through
  `toDateString` equality, so calendar days are modelled as integers and
  `MealEntry.timestamp` stores the entry's local calendar day directly.
* `try/catch` bodies are modelled with `Except`.
-/

namespace MealApp

/-- A JavaScript number that is either a finite value (modelled exactly as a
rational) or one of the non-finite values `NaN`, `Infinity`, `-Infinity`
that division by zero produces. -/
inductive JSNum where
  | num (q : ℚ)
  | nan
  | inf
  | negInf
deriving DecidableEq, Repr

/-- JS division `a / b` of finite numbers: finite for `b ≠ 0`;
`0/0 = NaN`, `a/0 = ±Infinity` by the sign of `a`. -/
def jsDiv (a b : ℚ) : JSNum :=
  if b ≠ 0 then .num (a / b)
  else if a = 0 then .nan
  else if 0 < a then .inf
  else .negInf

/-- JS multiplication by the literal `100`: `NaN*100 = NaN`,
`(±Infinity)*100 = ±Infinity`. -/
def jsTimes100 : JSNum → JSNum
  | .num q => .num (q * 100)
  | .nan => .nan
  | .inf => .inf
  | .negInf => .negInf

/-- `Math.round` on a finite double: round half toward `+∞`. -/
def jsRoundQ (q : ℚ) : ℤ := ⌊q + 1 / 2⌋

/-- `Math.round` on a general JS number: `Math.round(NaN) = NaN`,
`Math.round(±Infinity) = ±Infinity`. -/
def jsRound : JSNum → JSNum
  | .num q => .num ((jsRoundQ q : ℤ) : ℚ)
  | .nan => .nan
  | .inf => .inf
  | .negInf => .negInf

/-- `Math.round((sum / target) * 100)`, the percentage computation of
`calculateDailyNutrition` (mealStorage.ts lines 131-133) and of
`loadWeeklyData` (WeeklyProgressReport.tsx line 81). -/
def percentOfTarget (sum target : ℚ) : JSNum :=
  jsRound (jsTimes100 (jsDiv sum target))

/-- A stored meal entry (mealStorage.ts / §3 of the spec).  Numeric fields
are optional: the aggregator coerces absent fields with `|| 0`.
`timestamp` is the entry's local calendar day (the `toDateString` bucket
of the ISO timestamp). -/
structure MealEntry where
  id : Option String
  food : String
  calories : Option ℚ
  protein : Option ℚ
  carbs : Option ℚ
  fat : Option ℚ
  timestamp : ℤ
  notes : String
deriving DecidableEq, Repr

/-- Goal type selector of GoalSettingsModal.tsx. -/
inductive GoalType where
  | lose
  | maintain
  | gain
deriving DecidableEq, Repr

/-- Activity level selector of GoalSettingsModal.tsx. -/
inductive ActivityLevel where
  | low
  | moderate
  | high
deriving DecidableEq, Repr

/-- The user-goals record.  `goalType` and `activityLevel` are optional:
records written by `GoalSettingsModal.handleSave` carry them, but the
default record built inside `getUserGoals` (mealStorage.ts lines 85-90)
does not. -/
structure UserGoals where
  calorieTarget : ℚ
  proteinTarget : ℚ
  carbTarget : ℚ
  fatTarget : ℚ
  goalType : Option GoalType
  activityLevel : Option ActivityLevel
deriving DecidableEq, Repr

/-- The default goals literal of `getUserGoals` (spelled twice in the
source, lines 85-90 and 95-100, identically): only the four numeric
targets, no `goalType` or `activityLevel` field. -/
def defaultGoals : UserGoals :=
  { calorieTarget := 2000
    proteinTarget := 80
    carbTarget := 250
    fatTarget := 70
    goalType := none
    activityLevel := none }

/-- State of the `@meal_entries` blob in the key-value store:
`readError` models `AsyncStorage.getItem` throwing, `absent` a `null`
result, `malformed` JSON that `JSON.parse` rejects, `notArray` JSON that
parses to a non-array value, and `arr` a parsed array of entries. -/
inductive EntriesBlob where
  | readError
  | absent
  | malformed
  | notArray
  | arr (l : List MealEntry)
deriving DecidableEq, Repr

/-- State of the `@user_goals` blob in the key-value store. -/
inductive GoalsBlob where
  | readError
  | absent
  | malformed
  | obj (g : UserGoals)
deriving DecidableEq, Repr

/-- The persistence-adapter state, passed explicitly.  `writeFails`
models `AsyncStorage.setItem` throwing. -/
structure Storage where
  mealEntries : EntriesBlob
  userGoals : GoalsBlob
  writeFails : Bool
deriving DecidableEq, Repr

/-- The value `getMealEntries` hands to its caller: the parsed JSON is
either an array of entries or some non-array value (`getMealEntries`
never checks). -/
inductive MealsValue where
  | list (l : List MealEntry)
  | nonList
deriving DecidableEq, Repr

/-- `getMealEntries` (mealStorage.ts lines 40-48): returns the parsed
array, `[]` when nothing is stored, and `[]` from its `catch` when the
read or the parse throws.  A parsed non-array value is returned as-is. -/
def getMealEntries : EntriesBlob → MealsValue
  | .readError => .list []
  | .absent => .list []
  | .malformed => .list []
  | .notArray => .nonList
  | .arr l => .list l

/-- `getUserGoals` (mealStorage.ts lines 80-102): the stored record when
present, otherwise the default literal; the `catch` branch (read or parse
failure) returns the identical default literal. -/
def getUserGoals : GoalsBlob → UserGoals
  | .readError => defaultGoals
  | .absent => defaultGoals
  | .malformed => defaultGoals
  | .obj g => g

/-- The inline read `existingEntriesJson ? JSON.parse(existingEntriesJson) : []`
performed at the top of `saveMealEntry` and `deleteMealEntry`
(lines 10-11 and 53-54).  Unlike `getMealEntries`, a thrown read or parse
error here aborts the whole mutation (its `catch` returns `false`), and a
parsed non-array makes the subsequent `findIndex`/`filter` call throw,
aborting as well. -/
def readEntriesForMutation : EntriesBlob → Except Unit (List MealEntry)
  | .readError => .error ()
  | .absent => .ok []
  | .malformed => .error ()
  | .notArray => .error ()
  | .arr l => .ok l

/-- JS `mealEntry.id || fallback` (line 16): the fallback replaces a
missing id and also the falsy empty-string id. -/
def jsOrId (o : Option String) (fallback : String) : String :=
  match o with
  | some s => if s = "" then fallback else s
  | none => fallback

/-- Little-endian decimal digits of a natural number, fuel-indexed so the
definition is structural (and hence reduces).  Mirrors what
`Number.prototype.toString` produces for the integral values of
`Date.now()`. -/
def decDigitsRevAux : Nat → Nat → List Char
  | 0, _ => []
  | fuel + 1, n =>
    if n < 10 then [Nat.digitChar n]
    else Nat.digitChar (n % 10) :: decDigitsRevAux fuel (n / 10)

/-- Decimal rendering of a natural number, modelling
`Date.now().toString()`. -/
def natToString (n : Nat) : String :=
  ((decDigitsRevAux (n + 1) n).reverse).asString

/-- The id `saveMealEntry` stores for an incoming entry (line 16):
the entry's own id when truthy, else the decimal clock reading. -/
def assignedId (now : Nat) (e : MealEntry) : String :=
  jsOrId e.id (natToString now)

/-- Numeric value of a decimal digit character (used to invert
`Nat.digitChar` when reasoning about `natToString`). -/
def charVal (c : Char) : Nat := c.toNat - 48

/-- Value of a little-endian digit-character list (left inverse of
`decDigitsRevAux`). -/
def valRev : List Char → Nat
  | [] => 0
  | c :: cs => valRev cs * 10 + charVal c

/-- Lines 20-28 of `saveMealEntry`: `findIndex` on the id followed by
in-place assignment when found, `push` when not — i.e. replace the first
entry with a matching id, else append. -/
def upsertList (ne : MealEntry) : List MealEntry → List MealEntry
  | [] => [ne]
  | x :: xs => if x.id == ne.id then ne :: xs else x :: upsertList ne xs

/-- `saveMealEntry` (mealStorage.ts lines 7-38), with the `Date.now()`
reading passed explicitly.  Returns the success flag and the new storage
state. -/
def saveMealEntry (now : Nat) (e : MealEntry) (s : Storage) : Bool × Storage :=
  match readEntriesForMutation s.mealEntries with
  | .error _ => (false, s)
  | .ok existing =>
    let newEntry : MealEntry := { e with id := some (assignedId now e) }
    if s.writeFails then (false, s)
    else (true, { s with mealEntries := .arr (upsertList newEntry existing) })

/-- `deleteMealEntry` (mealStorage.ts lines 50-67): filter out the
matching id and persist the remainder. -/
def deleteMealEntry (mealId : String) (s : Storage) : Bool × Storage :=
  match readEntriesForMutation s.mealEntries with
  | .error _ => (false, s)
  | .ok existing =>
    let updated := existing.filter (fun entry => ¬ entry.id = some mealId)
    if s.writeFails then (false, s)
    else (true, { s with mealEntries := .arr updated })

/-- `saveUserGoals` (mealStorage.ts lines 70-78). -/
def saveUserGoals (g : UserGoals) (s : Storage) : Bool × Storage :=
  if s.writeFails then (false, s)
  else (true, { s with userGoals := .obj g })

/-- The field-wise daily sum of `calculateDailyNutrition` (lines 109,
119-124): filter the entries of the requested calendar day, coerce the
selected field with `|| 0`, and accumulate. -/
def dailyField (sel : MealEntry → Option ℚ) (l : List MealEntry) (d : ℤ) : ℚ :=
  ((l.filter (fun m => m.timestamp == d)).map (fun m => (sel m).getD 0)).sum

/-- Result record of `calculateDailyNutrition`.  Sums are finite numbers;
the percentages carry the `JSNum` the unguarded divisions produce. -/
structure DailyNutrition where
  calories : ℚ
  protein : ℚ
  carbs : ℚ
  fat : ℚ
  proteinPercentage : JSNum
  carbsPercentage : JSNum
  fatPercentage : JSNum
deriving DecidableEq, Repr

/-- The record returned by the `catch` branch of
`calculateDailyNutrition` (lines 137-145). -/
def zeroNutrition : DailyNutrition :=
  { calories := 0
    protein := 0
    carbs := 0
    fat := 0
    proteinPercentage := .num 0
    carbsPercentage := .num 0
    fatPercentage := .num 0 }

/-- The `try` body of `calculateDailyNutrition` (lines 106-134): fails
(throws) exactly when the value returned by `getMealEntries` is not an
array, so that `meals.filter` raises a `TypeError`. -/
def calculateDailyNutritionBody (d : ℤ) (s : Storage) : Except Unit DailyNutrition :=
  match getMealEntries s.mealEntries with
  | .nonList => .error ()
  | .list meals =>
    let goals := getUserGoals s.userGoals
    .ok
      { calories := dailyField (fun m => m.calories) meals d
        protein := dailyField (fun m => m.protein) meals d
        carbs := dailyField (fun m => m.carbs) meals d
        fat := dailyField (fun m => m.fat) meals d
        proteinPercentage := percentOfTarget (dailyField (fun m => m.protein) meals d) goals.proteinTarget
        carbsPercentage := percentOfTarget (dailyField (fun m => m.carbs) meals d) goals.carbTarget
        fatPercentage := percentOfTarget (dailyField (fun m => m.fat) meals d) goals.fatTarget }

/-- `calculateDailyNutrition` (mealStorage.ts lines 105-147): the `try`
body, with the `catch` returning the all-zero record. -/
def calculateDailyNutrition (d : ℤ) (s : Storage) : DailyNutrition :=
  match calculateDailyNutritionBody d s with
  | .ok r => r
  | .error _ => zeroNutrition

/-- Per-day record built by `loadWeeklyData`
(WeeklyProgressReport.tsx lines 20-28, 75-83). -/
structure DayData where
  date : ℤ
  calories : ℚ
  protein : ℚ
  carbs : ℚ
  fat : ℚ
  calorieGoalPercentage : JSNum
  hasEntries : Bool
deriving DecidableEq, Repr

/-- The 7 calendar days generated by the loop at
WeeklyProgressReport.tsx lines 54-59: the 6 days before `e`, then `e`. -/
def weekDates (e : ℤ) : List ℤ :=
  [e - 6, e - 5, e - 4, e - 3, e - 2, e - 1, e]

/-- One element pushed onto `weeklyData`
(WeeklyProgressReport.tsx lines 66-84). -/
def mkDayData (s : Storage) (allMeals : List MealEntry) (goals : UserGoals)
    (d : ℤ) : DayData :=
  let dayNutrition := calculateDailyNutrition d s
  { date := d
    calories := dayNutrition.calories
    protein := dayNutrition.protein
    carbs := dayNutrition.carbs
    fat := dayNutrition.fat
    calorieGoalPercentage := percentOfTarget dayNutrition.calories goals.calorieTarget
    hasEntries := allMeals.any (fun m => m.timestamp == d) }

/-- `loadWeeklyData` (WeeklyProgressReport.tsx lines 45-92) restricted to
the data it computes: the `weekData` state after the call.  When
`getMealEntries` hands back a non-array, `allMeals.some` throws, the
`catch` fires and `weekData` keeps its initial `[]`. -/
def loadWeeklyData (e : ℤ) (s : Storage) : List DayData :=
  match getMealEntries s.mealEntries with
  | .nonList => []
  | .list allMeals =>
    let goals := getUserGoals s.userGoals
    (weekDates e).map (mkDayData s allMeals goals)

/-- Result record of `calculateWeeklyAverages`. -/
structure WeeklyAverages where
  calories : ℚ
  protein : ℚ
  carbs : ℚ
  fat : ℚ
deriving DecidableEq, Repr

/-- `calculateWeeklyAverages` (WeeklyProgressReport.tsx lines 109-134):
keep only the days flagged `hasEntries`, return zeros when none remain,
otherwise `Math.round` of each total divided by the number of kept days
(the `reduce` accumulation is the sum of the mapped field). -/
def calculateWeeklyAverages (weekData : List DayData) : WeeklyAverages :=
  if weekData.isEmpty then { calories := 0, protein := 0, carbs := 0, fat := 0 }
  else
    let daysWithEntries := weekData.filter (fun day => day.hasEntries)
    if daysWithEntries.isEmpty then { calories := 0, protein := 0, carbs := 0, fat := 0 }
    else
      let n : ℚ := daysWithEntries.length
      { calories := ((jsRoundQ ((daysWithEntries.map (fun day => day.calories)).sum / n) : ℤ) : ℚ)
        protein := ((jsRoundQ ((daysWithEntries.map (fun day => day.protein)).sum / n) : ℤ) : ℚ)
        carbs := ((jsRoundQ ((daysWithEntries.map (fun day => day.carbs)).sum / n) : ℤ) : ℚ)
        fat := ((jsRoundQ ((daysWithEntries.map (fun day => day.fat)).sum / n) : ℤ) : ℚ) }

/-- The four targets `calculateCalories` writes back into the form
state. -/
structure DerivedTargets where
  calorieTarget : ℤ
  proteinTarget : ℤ
  carbTarget : ℤ
  fatTarget : ℤ
deriving DecidableEq, Repr

/-- Base calories by activity level
(GoalSettingsModal.tsx lines 92-98): the initial `2000` overridden for
`low` and `high`. -/
def activityBase : ActivityLevel → ℤ
  | .low => 1800
  | .moderate => 2000
  | .high => 2400

/-- `calculateCalories` (GoalSettingsModal.tsx lines 91-119).  The JS
double products `base*0.3`, `base*0.45`, `base*0.25` round (after the
division and `Math.round`) to the same integers as the exact rational
computation at every reachable base, so grams are computed over `ℚ`. -/
def calculateCalories (goalType : GoalType) (activityLevel : ActivityLevel) :
    DerivedTargets :=
  let base : ℤ :=
    match goalType with
    | .lose => activityBase activityLevel - 500
    | .maintain => activityBase activityLevel
    | .gain => activityBase activityLevel + 500
  { calorieTarget := base
    proteinTarget := jsRoundQ ((base : ℚ) * (3 / 10) / 4)
    carbTarget := jsRoundQ ((base : ℚ) * (45 / 100) / 4)
    fatTarget := jsRoundQ ((base : ℚ) * (25 / 100) / 9) }

/-- Round half away from zero, the rounding named by the spec (§4.3). -/
def razRound (q : ℚ) : ℤ :=
  if 0 ≤ q then ⌊q + 1 / 2⌋ else -⌊-q + 1 / 2⌋

/-- Refinement reference for C3, following the spec's words (§4.3):
activity base, goal adjustment, and macro grams via
round-half-away-from-zero. -/
def specDeriveTargets (goalType : GoalType) (activityLevel : ActivityLevel) :
    DerivedTargets :=
  let base : ℤ := activityBase activityLevel
  let cal : ℤ :=
    match goalType with
    | .lose => base - 500
    | .maintain => base
    | .gain => base + 500
  { calorieTarget := cal
    proteinTarget := razRound ((cal : ℚ) * (30 / 100) / 4)
    carbTarget := razRound ((cal : ℚ) * (45 / 100) / 4)
    fatTarget := razRound ((cal : ℚ) * (25 / 100) / 9) }

/-- Sample entry with id "a", used to instantiate witness theorems. -/
def demoE0 : MealEntry :=
  { id := some "a", food := "Oats", calories := none, protein := none,
    carbs := none, fat := none, timestamp := 0, notes := "" }

/-- Sample entry with id "b", used to instantiate witness theorems. -/
def demoE1 : MealEntry :=
  { id := some "b", food := "Rice", calories := none, protein := none,
    carbs := none, fat := none, timestamp := 0, notes := "" }

/-- Sample entry without an id, used to instantiate witness theorems. -/
def demoNoId1 : MealEntry :=
  { id := none, food := "Egg", calories := none, protein := none,
    carbs := none, fat := none, timestamp := 0, notes := "" }

/-- Second sample entry without an id. -/
def demoNoId2 : MealEntry :=
  { id := none, food := "Tea", calories := none, protein := none,
    carbs := none, fat := none, timestamp := 0, notes := "" }

/-- Storage with an empty stored collection. -/
def demoEmptyS : Storage :=
  { mealEntries := .arr [], userGoals := .absent, writeFails := false }

/-- Sample 1000 kcal entry on day 0, used to instantiate the weekly
averages witness. -/
def demoW1 : MealEntry :=
  { id := some "x", food := "Pasta", calories := some 1000, protein := some 10,
    carbs := some 20, fat := some 30, timestamp := 0, notes := "" }

/-- Sample 2000 kcal entry on day 1, used to instantiate the weekly
averages witness. -/
def demoW2 : MealEntry :=
  { id := some "y", food := "Pizza", calories := some 2000, protein := some 40,
    carbs := some 50, fat := some 60, timestamp := 1, notes := "" }

/-- Storage holding the two sample entries. -/
def demoS : Storage :=
  { mealEntries := .arr [demoE0, demoE1], userGoals := .absent, writeFails := false }

/-! ## Theorems -/

/-- C1: `calculateDailyNutrition` does NOT define division by a zero
macro target defensively.  With no entries for the day and a stored
goals record whose `proteinTarget` is `0`, the unguarded
`Math.round((0 / 0) * 100)` at mealStorage.ts line 131 yields `NaN`
for `proteinPercentage`, not the `0` the claim requires, even though
every sum is `0`. -/
theorem dailyNutrition_zero_target_not_defensive :
    (calculateDailyNutrition 0
      { mealEntries := .arr []
        userGoals := .obj
          { calorieTarget := 2000, proteinTarget := 0, carbTarget := 250,
            fatTarget := 70, goalType := none, activityLevel := none }
        writeFails := false }) =
      { calories := 0, protein := 0, carbs := 0, fat := 0
        proteinPercentage := JSNum.nan
        carbsPercentage := JSNum.num 0
        fatPercentage := JSNum.num 0 } ∧
    JSNum.nan ≠ JSNum.num 0 := by
  refine ⟨?_, by simp⟩
  simp only [calculateDailyNutrition, calculateDailyNutritionBody, getMealEntries,
    getUserGoals, dailyField, percentOfTarget, jsDiv, jsTimes100, jsRound, jsRoundQ]
  norm_num

/-- C3: for every goal type and activity level, `calculateCalories`
computes the activity base (1800/2000/2400) adjusted by ±500 for
lose/gain, and macro grams as the spec's rounded fractions
(30%/4, 45%/4, 25%/9 with round-half-away-from-zero); in particular
gain+high yields 2900 kcal, 218 g protein, 326 g carbs, 81 g fat. -/
theorem calculateCalories_matches_spec_formula :
    (∀ g a, calculateCalories g a = specDeriveTargets g a) ∧
    calculateCalories GoalType.gain ActivityLevel.high =
      { calorieTarget := 2900, proteinTarget := 218, carbTarget := 326,
        fatTarget := 81 } := by
  constructor
  · intro g a
    cases g <;> cases a <;>
      norm_num [calculateCalories, specDeriveTargets, activityBase, jsRoundQ, razRound]
  · norm_num [calculateCalories, activityBase, jsRoundQ]

/-- C4 counterexample: the claim's six-value set omits the moderate
activity base; maintain+moderate derives a 2000 kcal target, which is
not among {1300, 1800, 1900, 2300, 2400, 2900}. -/
theorem calorieTarget_moderate_outside_claimed_set :
    (calculateCalories GoalType.maintain ActivityLevel.moderate).calorieTarget = 2000 ∧
    ¬ ((2000 : ℤ) = 1300 ∨ (2000 : ℤ) = 1800 ∨ (2000 : ℤ) = 1900 ∨
       (2000 : ℤ) = 2300 ∨ (2000 : ℤ) = 2400 ∨ (2000 : ℤ) = 2900) := by
  refine ⟨by norm_num [calculateCalories, activityBase], by decide⟩

/-- C4 amended: for every goal type and activity level the derived
calorie target lies in
{1300, 1500, 1800, 1900, 2000, 2300, 2400, 2500, 2900}
(each activity base, and each base ± 500). -/
theorem calorieTarget_in_nine_value_set :
    ∀ g a, (calculateCalories g a).calorieTarget ∈
      ([1300, 1500, 1800, 1900, 2000, 2300, 2400, 2500, 2900] : List ℤ) := by
  intro g a
  cases g <;> cases a <;>
    norm_num [calculateCalories, activityBase, List.mem_cons]

/-- C5 counterexample: at lose+moderate (1500 kcal) the derived grams
give 4·113 + 4·169 + 9·42 = 1506, missing the calorie target by 6,
which exceeds the claimed ≤ 3 kcal tolerance. -/
theorem macro_calorie_gap_exceeds_three :
    ¬ (|4 * (calculateCalories GoalType.lose ActivityLevel.moderate).proteinTarget +
        4 * (calculateCalories GoalType.lose ActivityLevel.moderate).carbTarget +
        9 * (calculateCalories GoalType.lose ActivityLevel.moderate).fatTarget -
        (calculateCalories GoalType.lose ActivityLevel.moderate).calorieTarget| ≤ 3) := by
  norm_num [calculateCalories, activityBase, jsRoundQ]

/-- C5 amended: for every goal type and activity level,
|4·protein + 4·carbs + 9·fat − calorieTarget| ≤ 6 kcal. -/
theorem macro_calorie_gap_le_six :
    ∀ g a, |4 * (calculateCalories g a).proteinTarget +
      4 * (calculateCalories g a).carbTarget +
      9 * (calculateCalories g a).fatTarget -
      (calculateCalories g a).calorieTarget| ≤ 6 := by
  intro g a
  cases g <;> cases a <;> norm_num [calculateCalories, activityBase, jsRoundQ]

/-- C6 counterexample: the default record `getUserGoals` returns when
nothing is stored carries no `goalType` and no `activityLevel` field at
all (mealStorage.ts lines 85-90), so it is not the claimed record with
`goalType` maintain and `activityLevel` moderate. -/
theorem getUserGoals_default_lacks_goalType :
    (getUserGoals GoalsBlob.absent).goalType ≠ some GoalType.maintain ∧
    (getUserGoals GoalsBlob.absent).activityLevel ≠ some ActivityLevel.moderate := by
  exact ⟨by simp [getUserGoals, defaultGoals], by simp [getUserGoals, defaultGoals]⟩

/-- C6 amended: `getUserGoals` returns the default record — targets
2000/80/250/70 with `goalType` and `activityLevel` absent — when no
record is stored, when the read throws, and when the stored JSON is
unparseable; otherwise it returns the stored record unchanged. -/
theorem getUserGoals_default_and_stored :
    getUserGoals GoalsBlob.absent = defaultGoals ∧
    getUserGoals GoalsBlob.readError = defaultGoals ∧
    getUserGoals GoalsBlob.malformed = defaultGoals ∧
    defaultGoals.calorieTarget = 2000 ∧ defaultGoals.proteinTarget = 80 ∧
    defaultGoals.carbTarget = 250 ∧ defaultGoals.fatTarget = 70 ∧
    defaultGoals.goalType = none ∧ defaultGoals.activityLevel = none ∧
    ∀ g, getUserGoals (GoalsBlob.obj g) = g := by
  exact ⟨rfl, rfl, rfl, rfl, rfl, rfl, rfl, rfl, rfl, fun g => rfl⟩

/-- C10 counterexample: a failing goals read does not zero the totals.
With one readable 500-kcal entry on the requested day and the goals
read throwing, `getUserGoals` masks its failure with the defaults, so
`calculateDailyNutrition` returns calories = 500, not the all-zero
record the claim demands for "any internal step fails". -/
theorem goals_read_failure_does_not_zero_totals :
    (calculateDailyNutrition 0
      { mealEntries := .arr [⟨some "m1", "Lunch", some 500, some 20, some 30, some 10, 0, ""⟩]
        userGoals := .readError
        writeFails := false }).calories = 500 ∧
    calculateDailyNutrition 0
      { mealEntries := .arr [⟨some "m1", "Lunch", some 500, some 20, some 30, some 10, 0, ""⟩]
        userGoals := .readError
        writeFails := false } ≠ zeroNutrition := by
  constructor
  · simp only [calculateDailyNutrition, calculateDailyNutritionBody, getMealEntries,
      getUserGoals, dailyField]
    norm_num
  · simp only [calculateDailyNutrition, calculateDailyNutritionBody, getMealEntries,
      getUserGoals, dailyField, zeroNutrition, ne_eq, DailyNutrition.mk.injEq]
    norm_num

/-- C10 amended: `calculateDailyNutrition` is total (never propagates an
exception).  Failures inside `getMealEntries`/`getUserGoals` are masked
to the empty list / default goals, so the result still reflects the
readable data; the all-zero record is produced exactly by the outer
`catch`, which fires when the stored entries JSON deserializes to a
non-array and the body's `meals.filter` call throws. -/
theorem calculateDailyNutrition_catch_and_masking :
    (∀ (d : ℤ) gb w,
      calculateDailyNutrition d
        { mealEntries := .notArray, userGoals := gb, writeFails := w } = zeroNutrition) ∧
    (∀ (d : ℤ) l gb w,
      calculateDailyNutrition d
        { mealEntries := .arr l, userGoals := gb, writeFails := w } =
        { calories := dailyField (fun m => m.calories) l d
          protein := dailyField (fun m => m.protein) l d
          carbs := dailyField (fun m => m.carbs) l d
          fat := dailyField (fun m => m.fat) l d
          proteinPercentage :=
            percentOfTarget (dailyField (fun m => m.protein) l d) (getUserGoals gb).proteinTarget
          carbsPercentage :=
            percentOfTarget (dailyField (fun m => m.carbs) l d) (getUserGoals gb).carbTarget
          fatPercentage :=
            percentOfTarget (dailyField (fun m => m.fat) l d) (getUserGoals gb).fatTarget }) ∧
    (∀ (d : ℤ) gb w,
      calculateDailyNutrition d
        { mealEntries := .readError, userGoals := gb, writeFails := w } =
        calculateDailyNutrition d
          { mealEntries := .arr [], userGoals := gb, writeFails := w }) ∧
    (∀ (d : ℤ) gb w,
      calculateDailyNutrition d
        { mealEntries := .malformed, userGoals := gb, writeFails := w } =
        calculateDailyNutrition d
          { mealEntries := .arr [], userGoals := gb, writeFails := w }) := by
  exact ⟨fun d gb w => rfl, fun d l gb w => rfl, fun d gb w => rfl, fun d gb w => rfl⟩

/-! ### Entry Store lemmas -/

lemma upsertList_idem (ne : MealEntry) (l : List MealEntry) :
    upsertList ne (upsertList ne l) = upsertList ne l := by
  induction l with
  | nil => simp [upsertList]
  | cons x xs ih =>
    by_cases h : (x.id == ne.id) = true
    · simp [upsertList, h]
    · simp only [upsertList, h]
      simp [upsertList, h, ih]

lemma upsertList_mem_id (ne : MealEntry) (l : List MealEntry) (y : Option String)
    (hy : y ∈ (upsertList ne l).map (fun x => x.id)) :
    y ∈ l.map (fun x => x.id) ∨ y = ne.id := by
  induction l with
  | nil => simp [upsertList] at hy; simp [hy]
  | cons x xs ih =>
    by_cases h : (x.id == ne.id) = true
    · simp [upsertList, h] at hy
      rcases hy with hy | hy
      · exact Or.inr hy
      · exact Or.inl (by simp [hy])
    · simp [upsertList, h] at hy
      rcases hy with hy | hy
      · exact Or.inl (by simp [hy])
      · rcases ih (by simpa using hy) with h' | h'
        · exact Or.inl (by simp at h' ⊢; exact Or.inr h')
        · exact Or.inr h'

lemma upsertList_ids_nodup (ne : MealEntry) (l : List MealEntry)
    (h : (l.map (fun x => x.id)).Nodup) :
    ((upsertList ne l).map (fun x => x.id)).Nodup := by
  induction l with
  | nil => simp [upsertList]
  | cons x xs ih =>
    simp only [List.map_cons, List.nodup_cons] at h
    cases hb : (x.id == ne.id) with
    | true =>
      have hx : x.id = ne.id := by simpa using hb
      simp [upsertList, hb, List.nodup_cons, ← hx, h.1, h.2]
    | false =>
      have hx : ¬ x.id = ne.id := by simpa using hb
      simp only [upsertList, hb, Bool.false_eq_true, if_false, List.map_cons,
        List.nodup_cons]
      refine ⟨fun hmem => ?_, ih h.2⟩
      rcases upsertList_mem_id ne xs x.id hmem with h' | h'
      · exact h.1 h'
      · exact hx h'

lemma upsertList_length_of_match (ne : MealEntry) (l : List MealEntry)
    (h : ∃ x ∈ l, x.id = ne.id) : (upsertList ne l).length = l.length := by
  induction l with
  | nil => simp at h
  | cons x xs ih =>
    by_cases hb : (x.id == ne.id) = true
    · simp [upsertList, hb]
    · have hx : ¬ x.id = ne.id := by simpa using hb
      rcases h with ⟨y, hy, hyid⟩
      rcases List.mem_cons.mp hy with rfl | hy'
      · exact absurd hyid hx
      · simp [upsertList, hb, ih ⟨y, hy', hyid⟩]

lemma upsertList_append_of_no_match (ne : MealEntry) (l : List MealEntry)
    (h : ∀ x ∈ l, ¬ x.id = ne.id) : upsertList ne l = l ++ [ne] := by
  induction l with
  | nil => simp [upsertList]
  | cons x xs ih =>
    have hb : (x.id == ne.id) = false := by
      simpa using h x (List.mem_cons_self x xs)
    simp [upsertList, hb, ih (fun y hy => h y (List.mem_cons_of_mem x hy))]

lemma assignedId_of_some (now : Nat) (e : MealEntry) (i : String)
    (hid : e.id = some i) (hne : i ≠ "") : assignedId now e = i := by
  simp [assignedId, jsOrId, hid, hne]

lemma newEntry_eq_self (now : Nat) (e : MealEntry) (i : String)
    (hid : e.id = some i) (hne : i ≠ "") :
    ({ e with id := some (assignedId now e) } : MealEntry) = e := by
  rw [assignedId_of_some now e i hid hne]
  cases e
  simp_all

lemma saveMealEntry_storage_idem (now1 now2 : Nat) (e : MealEntry) (i : String)
    (hid : e.id = some i) (hne : i ≠ "") (s : Storage) :
    (saveMealEntry now2 e (saveMealEntry now1 e s).2).2 = (saveMealEntry now1 e s).2 := by
  cases hrd : readEntriesForMutation s.mealEntries with
  | error u => simp [saveMealEntry, hrd]
  | ok existing =>
    cases hw : s.writeFails with
    | true => simp [saveMealEntry, hrd, hw]
    | false =>
      have h1 : saveMealEntry now1 e s =
          (true, { s with mealEntries := .arr (upsertList e existing) }) := by
        simp only [saveMealEntry, hrd, hw, Bool.false_eq_true, if_false,
          newEntry_eq_self now1 e i hid hne]
      rw [h1]
      simp only [saveMealEntry, readEntriesForMutation, hw, Bool.false_eq_true, if_false,
        newEntry_eq_self now2 e i hid hne, upsertList_idem]

/-- C7: `upsert` is idempotent under identical id and content — for every
entry with a (truthy) id and every prior storage state, saving it twice
yields the same `list()` result as saving it once. -/
theorem saveMealEntry_idempotent (now1 now2 : Nat) (e : MealEntry) (i : String)
    (hid : e.id = some i) (hne : i ≠ "") (s : Storage) :
    getMealEntries ((saveMealEntry now2 e (saveMealEntry now1 e s).2).2).mealEntries =
      getMealEntries ((saveMealEntry now1 e s).2).mealEntries := by
  rw [saveMealEntry_storage_idem now1 now2 e i hid hne s]

/-- Witness for C7 at concrete inputs: saving the sample entry twice into
empty storage equals saving it once. -/
theorem saveMealEntry_idempotent_witness :
    getMealEntries ((saveMealEntry 2 demoE0 (saveMealEntry 1 demoE0 demoEmptyS).2).2).mealEntries =
      getMealEntries ((saveMealEntry 1 demoE0 demoEmptyS).2).mealEntries :=
  saveMealEntry_idempotent 1 2 demoE0 "a" rfl (by decide) demoEmptyS

lemma filter_restore_toFinset (l : List MealEntry) (e : MealEntry) (i : String)
    (he : e ∈ l) (huniq : ∀ x ∈ l, x.id = some i → x = e) :
    ((l.filter (fun x => ¬ x.id = some i)) ++ [e]).toFinset = l.toFinset := by
  ext x
  simp only [List.toFinset_append, Finset.mem_union, List.mem_toFinset, List.mem_filter,
    List.mem_singleton, decide_eq_true_eq]
  constructor
  · rintro (⟨hx, _⟩ | rfl)
    · exact hx
    · exact he
  · intro hx
    by_cases hxi : x.id = some i
    · exact Or.inr (huniq x hx hxi)
    · exact Or.inl ⟨hx, hxi⟩

/-- C8: `remove` on an id with no matching entry reports success and
leaves the storage (hence `list()`) unchanged; and for an entry `e`
present in a collection with a truthy id unique to it, `remove(e.id)`
followed by `upsert(e)` yields a collection equal, as a set of entries,
to the original (the removed entry is re-appended). -/
theorem deleteMealEntry_noop_and_restore :
    (∀ (s : Storage) (l : List MealEntry) (mealId : String),
      s.mealEntries = .arr l → s.writeFails = false →
      (∀ x ∈ l, ¬ x.id = some mealId) →
      deleteMealEntry mealId s = (true, s)) ∧
    (∀ (s : Storage) (l : List MealEntry) (e : MealEntry) (i : String) (now : Nat),
      s.mealEntries = .arr l → s.writeFails = false →
      e ∈ l → e.id = some i → i ≠ "" →
      (∀ x ∈ l, x.id = some i → x = e) →
      (saveMealEntry now e (deleteMealEntry i s).2).2.mealEntries =
        .arr ((l.filter (fun x => ¬ x.id = some i)) ++ [e]) ∧
      ((l.filter (fun x => ¬ x.id = some i)) ++ [e]).toFinset = l.toFinset) := by
  constructor
  · intro s l mealId hm hw hnone
    obtain ⟨me, ug, wf⟩ := s
    simp only at hm hw
    subst hm; subst hw
    have hfilter : l.filter (fun x => ¬ x.id = some mealId) = l := by
      rw [List.filter_eq_self]
      intro a ha
      simpa using hnone a ha
    simp only [deleteMealEntry, readEntriesForMutation, Bool.false_eq_true, if_false,
      hfilter]
  · intro s l e i now hm hw he hid hne huniq
    obtain ⟨me, ug, wf⟩ := s
    simp only at hm hw
    subst hm; subst hw
    refine ⟨?_, filter_restore_toFinset l e i he huniq⟩
    have hnomatch : ∀ x ∈ l.filter (fun x => ¬ x.id = some i),
        ¬ x.id = ({ e with id := some (assignedId now e) } : MealEntry).id := by
      intro x hx
      rw [newEntry_eq_self now e i hid hne, hid]
      exact of_decide_eq_true (List.mem_filter.mp hx).2
    simp only [deleteMealEntry, readEntriesForMutation, Bool.false_eq_true, if_false]
    simp only [saveMealEntry, readEntriesForMutation, Bool.false_eq_true, if_false]
    rw [upsertList_append_of_no_match _ _ hnomatch, newEntry_eq_self now e i hid hne]

/-- Witness for C8 at concrete inputs: removing an id that is not stored
is a reported-success no-op, and remove-then-save restores the sample
collection as a set. -/
theorem deleteMealEntry_noop_and_restore_witness :
    deleteMealEntry "zz" demoS = (true, demoS) ∧
    ((saveMealEntry 7 demoE0 (deleteMealEntry "a" demoS).2).2.mealEntries =
      .arr (([demoE0, demoE1].filter (fun x => ¬ x.id = some "a")) ++ [demoE0]) ∧
    (([demoE0, demoE1].filter (fun x => ¬ x.id = some "a")) ++ [demoE0]).toFinset =
      [demoE0, demoE1].toFinset) :=
  ⟨deleteMealEntry_noop_and_restore.1 demoS [demoE0, demoE1] "zz" rfl rfl (by decide),
   deleteMealEntry_noop_and_restore.2 demoS [demoE0, demoE1] demoE0 "a" 7 rfl rfl
     (by decide) rfl (by decide) (by decide)⟩

/-! ### Decimal id rendering -/

lemma charVal_digitChar : ∀ d < 10, charVal (Nat.digitChar d) = d := by decide

lemma valRev_decDigitsRevAux : ∀ fuel n, n < fuel → valRev (decDigitsRevAux fuel n) = n := by
  intro fuel
  induction fuel with
  | zero => intro n h; exact absurd h (Nat.not_lt_zero n)
  | succ f ih =>
    intro n h
    by_cases h10 : n < 10
    · simp [decDigitsRevAux, h10, valRev, charVal_digitChar n h10]
    · have hdivlt : n / 10 < f := by
        have hlt : n / 10 < n := Nat.div_lt_self (by omega) (by omega)
        omega
      simp only [decDigitsRevAux, h10, if_false, valRev, ih (n / 10) hdivlt,
        charVal_digitChar (n % 10) (Nat.mod_lt n (by omega))]
      omega

lemma natToString_injective : Function.Injective natToString := by
  intro a b h
  have hdata : (decDigitsRevAux (a + 1) a).reverse = (decDigitsRevAux (b + 1) b).reverse := by
    have h' := congrArg String.data h
    simpa [natToString, List.asString] using h'
  have hdd : decDigitsRevAux (a + 1) a = decDigitsRevAux (b + 1) b := by
    have h' := congrArg List.reverse hdata
    simpa using h'
  have ha := valRev_decDigitsRevAux (a + 1) a (Nat.lt_succ_self a)
  have hb := valRev_decDigitsRevAux (b + 1) b (Nat.lt_succ_self b)
  rw [← ha, ← hb, hdd]

/-- C9 counterexample: two `saveMealEntry` calls whose `Date.now()`
readings coincide (same millisecond) assign the SAME time-based id to
two id-less entries; the second call then replaces the first entry
instead of adding a second one, so the stored collection holds only the
second entry. -/
theorem time_based_id_collision :
    assignedId 5 demoNoId1 = assignedId 5 demoNoId2 ∧
    (saveMealEntry 5 demoNoId2 (saveMealEntry 5 demoNoId1 demoEmptyS).2).2.mealEntries =
      .arr [{ demoNoId2 with id := some (natToString 5) }] := by
  exact ⟨rfl, rfl⟩

/-- C9 amended: every Entry Store mutation preserves the id-uniqueness
invariant — `saveMealEntry` into a collection with pairwise-distinct ids
yields a collection with pairwise-distinct ids, and saving an entry whose
(truthy) id is already present replaces in place, keeping the length —
and the time-based ids assigned to id-less entries are distinct provided
the `Date.now()` readings of the calls differ. -/
theorem saveMealEntry_unique_id_invariant :
    (∀ (now : Nat) (e : MealEntry) (s : Storage) (l l' : List MealEntry),
      s.mealEntries = .arr l → (l.map (fun x => x.id)).Nodup →
      (saveMealEntry now e s).2.mealEntries = .arr l' →
      (l'.map (fun x => x.id)).Nodup) ∧
    (∀ (now : Nat) (e : MealEntry) (s : Storage) (l : List MealEntry) (i : String),
      s.mealEntries = .arr l → s.writeFails = false →
      e.id = some i → i ≠ "" → (∃ x ∈ l, x.id = some i) →
      ∃ l', (saveMealEntry now e s).2.mealEntries = .arr l' ∧ l'.length = l.length) ∧
    (∀ (n1 n2 : Nat) (e1 e2 : MealEntry), n1 ≠ n2 → e1.id = none → e2.id = none →
      assignedId n1 e1 ≠ assignedId n2 e2) := by
  refine ⟨?_, ?_, ?_⟩
  · intro now e s l l' hm hnd hm'
    obtain ⟨me, ug, wf⟩ := s
    simp only at hm hm'
    subst hm
    cases wf with
    | true =>
      simp only [saveMealEntry, readEntriesForMutation, if_true] at hm'
      cases hm'
      exact hnd
    | false =>
      simp only [saveMealEntry, readEntriesForMutation, Bool.false_eq_true, if_false,
        EntriesBlob.arr.injEq] at hm'
      subst hm'
      exact upsertList_ids_nodup _ l hnd
  · intro now e s l i hm hw hid hne hmem
    obtain ⟨me, ug, wf⟩ := s
    simp only at hm hw
    subst hm; subst hw
    refine ⟨upsertList ({ e with id := some (assignedId now e) }) l, ?_, ?_⟩
    · simp only [saveMealEntry, readEntriesForMutation, Bool.false_eq_true, if_false]
    · apply upsertList_length_of_match
      rcases hmem with ⟨x, hx, hxid⟩
      refine ⟨x, hx, ?_⟩
      rw [newEntry_eq_self now e i hid hne, hid, hxid]
  · intro n1 n2 e1 e2 hne h1 h2
    simp only [assignedId, jsOrId, h1, h2]
    exact fun hc => hne (natToString_injective hc)

/-- Witness for C9's amended theorem at concrete inputs: saving into the
two-entry sample collection keeps its ids pairwise distinct, saving an
entry whose id is present keeps the length at 2, and clock readings 1
and 2 yield distinct assigned ids. -/
theorem saveMealEntry_unique_id_invariant_witness :
    (([demoE0, demoE1].map (fun x => x.id)).Nodup) ∧
    (∃ l', (saveMealEntry 3 demoE0 demoS).2.mealEntries = .arr l' ∧
      l'.length = [demoE0, demoE1].length) ∧
    assignedId 1 demoNoId1 ≠ assignedId 2 demoNoId2 := by
  refine ⟨?_, ?_, ?_⟩
  · exact saveMealEntry_unique_id_invariant.1 3 demoE0 demoS [demoE0, demoE1]
      [demoE0, demoE1] rfl (by decide) rfl
  · exact saveMealEntry_unique_id_invariant.2.1 3 demoE0 demoS [demoE0, demoE1] "a"
      rfl rfl rfl (by decide) ⟨demoE0, by decide, rfl⟩
  · exact saveMealEntry_unique_id_invariant.2.2 1 2 demoNoId1 demoNoId2
      (by decide) rfl rfl

/-! ### Weekly averages -/

lemma weekDates_nodup (e : ℤ) : (weekDates e).Nodup := by
  simp [weekDates]

lemma filter_pair_perm (ds : List ℤ) (hnd : ds.Nodup) (d1 d2 : ℤ)
    (h1 : d1 ∈ ds) (h2 : d2 ∈ ds) (hne : d1 ≠ d2) (p : ℤ → Bool)
    (hp : ∀ d, p d = true ↔ (d = d1 ∨ d = d2)) :
    List.Perm (ds.filter p) [d1, d2] := by
  apply List.perm_of_nodup_nodup_toFinset_eq (hnd.filter p)
    (by simp [List.nodup_cons, hne])
  ext x
  simp only [List.mem_toFinset, List.mem_filter, List.mem_cons, List.not_mem_nil, or_false]
  constructor
  · rintro ⟨_, hx⟩
    exact (hp x).mp hx
  · rintro (rfl | rfl)
    · exact ⟨h1, (hp x).mpr (Or.inl rfl)⟩
    · exact ⟨h2, (hp x).mpr (Or.inr rfl)⟩

lemma perm_pair_map_sum {α : Type} {ds : List α} {d1 d2 : α}
    (h : List.Perm ds [d1, d2]) (f : α → ℚ) : (ds.map f).sum = f d1 + f d2 := by
  rw [(h.map f).sum_eq]
  simp

lemma calculateDailyNutrition_arr (d : ℤ) (l : List MealEntry) (gb : GoalsBlob)
    (w : Bool) :
    calculateDailyNutrition d { mealEntries := .arr l, userGoals := gb, writeFails := w } =
      { calories := dailyField (fun m => m.calories) l d
        protein := dailyField (fun m => m.protein) l d
        carbs := dailyField (fun m => m.carbs) l d
        fat := dailyField (fun m => m.fat) l d
        proteinPercentage :=
          percentOfTarget (dailyField (fun m => m.protein) l d) (getUserGoals gb).proteinTarget
        carbsPercentage :=
          percentOfTarget (dailyField (fun m => m.carbs) l d) (getUserGoals gb).carbTarget
        fatPercentage :=
          percentOfTarget (dailyField (fun m => m.fat) l d) (getUserGoals gb).fatTarget } :=
  rfl

/-- C2: `calculateWeeklyAverages` over the 7-day window ending at `e`
averages each field only across days whose filtered entry set is
non-empty.  When the entries fall on exactly two distinct window days
`d1`, `d2`, each average is `Math.round` of the two daily totals divided
by 2 (not by 7); when no entry falls in the window, every average is
0. -/
theorem weeklyAverages_only_days_with_entries :
    (∀ (l : List MealEntry) (gb : GoalsBlob) (w : Bool) (e d1 d2 : ℤ),
      d1 ∈ weekDates e → d2 ∈ weekDates e → d1 ≠ d2 →
      (∃ m ∈ l, m.timestamp = d1) → (∃ m ∈ l, m.timestamp = d2) →
      (∀ m ∈ l, m.timestamp = d1 ∨ m.timestamp = d2) →
      calculateWeeklyAverages
          (loadWeeklyData e { mealEntries := .arr l, userGoals := gb, writeFails := w }) =
        { calories := ((jsRoundQ ((dailyField (fun m => m.calories) l d1 +
              dailyField (fun m => m.calories) l d2) / 2) : ℤ) : ℚ)
          protein := ((jsRoundQ ((dailyField (fun m => m.protein) l d1 +
              dailyField (fun m => m.protein) l d2) / 2) : ℤ) : ℚ)
          carbs := ((jsRoundQ ((dailyField (fun m => m.carbs) l d1 +
              dailyField (fun m => m.carbs) l d2) / 2) : ℤ) : ℚ)
          fat := ((jsRoundQ ((dailyField (fun m => m.fat) l d1 +
              dailyField (fun m => m.fat) l d2) / 2) : ℤ) : ℚ) }) ∧
    (∀ (l : List MealEntry) (gb : GoalsBlob) (w : Bool) (e : ℤ),
      (∀ m ∈ l, m.timestamp ∉ weekDates e) →
      calculateWeeklyAverages
          (loadWeeklyData e { mealEntries := .arr l, userGoals := gb, writeFails := w }) =
        { calories := 0, protein := 0, carbs := 0, fat := 0 }) := by
  constructor
  · intro l gb w e d1 d2 h1 h2 hne hex1 hex2 hall
    have hp : ∀ d, (l.any fun m => m.timestamp == d) = true ↔ (d = d1 ∨ d = d2) := by
      intro d
      constructor
      · intro hd
        rcases List.any_eq_true.mp hd with ⟨m, hm, hmd⟩
        have hts : m.timestamp = d := by simpa using hmd
        rcases hall m hm with h' | h'
        · exact Or.inl (by rw [← hts, h'])
        · exact Or.inr (by rw [← hts, h'])
      · rintro (rfl | rfl)
        · rcases hex1 with ⟨m, hm, hmd⟩
          exact List.any_eq_true.mpr ⟨m, hm, by simpa using hmd⟩
        · rcases hex2 with ⟨m, hm, hmd⟩
          exact List.any_eq_true.mpr ⟨m, hm, by simpa using hmd⟩
    have hperm := filter_pair_perm (weekDates e) (weekDates_nodup e) d1 d2 h1 h2 hne
      (fun d => l.any fun m => m.timestamp == d) hp
    have hload : loadWeeklyData e { mealEntries := .arr l, userGoals := gb, writeFails := w } =
        (weekDates e).map
          (mkDayData { mealEntries := .arr l, userGoals := gb, writeFails := w } l
            (getUserGoals gb)) := rfl
    have hfilter_eq : ((weekDates e).map
          (mkDayData { mealEntries := .arr l, userGoals := gb, writeFails := w } l
            (getUserGoals gb))).filter (fun day => day.hasEntries) =
        ((weekDates e).filter (fun d => l.any fun m => m.timestamp == d)).map
          (mkDayData { mealEntries := .arr l, userGoals := gb, writeFails := w } l
            (getUserGoals gb)) :=
      List.filter_map _ _
    have hlen2 : (((weekDates e).filter (fun d => l.any fun m => m.timestamp == d)).map
        (mkDayData { mealEntries := .arr l, userGoals := gb, writeFails := w } l
          (getUserGoals gb))).length = 2 := by
      rw [List.length_map, hperm.length_eq]
      rfl
    have hsum : ∀ (g : DayData → ℚ),
        ((((weekDates e).filter (fun d => l.any fun m => m.timestamp == d)).map
          (mkDayData { mealEntries := .arr l, userGoals := gb, writeFails := w } l
            (getUserGoals gb))).map g).sum =
          g (mkDayData { mealEntries := .arr l, userGoals := gb, writeFails := w } l
              (getUserGoals gb) d1) +
          g (mkDayData { mealEntries := .arr l, userGoals := gb, writeFails := w } l
              (getUserGoals gb) d2) := by
      intro g
      rw [List.map_map]
      exact perm_pair_map_sum hperm _
    have hne2 : (((weekDates e).filter (fun d => l.any fun m => m.timestamp == d)).map
        (mkDayData { mealEntries := .arr l, userGoals := gb, writeFails := w } l
          (getUserGoals gb))).isEmpty = false := by
      rcases hl : ((weekDates e).filter (fun d => l.any fun m => m.timestamp == d)).map
          (mkDayData { mealEntries := .arr l, userGoals := gb, writeFails := w } l
            (getUserGoals gb)) with _ | ⟨a, rest⟩
      · rw [hl] at hlen2
        simp at hlen2
      · rfl
    have hwdne : (((weekDates e).map
        (mkDayData { mealEntries := EntriesBlob.arr l, userGoals := gb, writeFails := w } l
          (getUserGoals gb)))).isEmpty = false := by
      simp [weekDates]
    rw [hload]
    simp only [calculateWeeklyAverages, hwdne, Bool.false_eq_true, if_false, hfilter_eq,
      hne2, hlen2, hsum, mkDayData, calculateDailyNutrition_arr]
    norm_num
  · intro l gb w e hnone
    have hfilter_eq : ((weekDates e).map
          (mkDayData { mealEntries := .arr l, userGoals := gb, writeFails := w } l
            (getUserGoals gb))).filter (fun day => day.hasEntries) =
        ((weekDates e).filter (fun d => l.any fun m => m.timestamp == d)).map
          (mkDayData { mealEntries := .arr l, userGoals := gb, writeFails := w } l
            (getUserGoals gb)) :=
      List.filter_map _ _
    have hnil : ((weekDates e).filter (fun d => l.any fun m => m.timestamp == d)) = [] := by
      rw [List.filter_eq_nil_iff]
      intro d hd
      simp only [List.any_eq_true, not_exists, not_and, Bool.not_eq_true]
      intro m hm
      refine beq_eq_false_iff_ne.mpr ?_
      intro hts
      exact hnone m hm (hts ▸ hd)
    have hload : loadWeeklyData e { mealEntries := .arr l, userGoals := gb, writeFails := w } =
        (weekDates e).map
          (mkDayData { mealEntries := .arr l, userGoals := gb, writeFails := w } l
            (getUserGoals gb)) := rfl
    rw [hload]
    simp only [calculateWeeklyAverages, hfilter_eq, hnil, List.map_nil, List.isEmpty_nil,
      if_true]
    split
    · rfl
    · rfl

/-- Witness for C2 at concrete inputs: entries of 1000 and 2000 kcal on
two of the seven days ending at day 1 average to 1500 kcal (with the
macro fields averaged the same way), and a window containing no entry
averages to all zeros. -/
theorem weeklyAverages_only_days_with_entries_witness :
    calculateWeeklyAverages (loadWeeklyData 1
        { mealEntries := .arr [demoW1, demoW2], userGoals := .absent, writeFails := false }) =
      { calories := 1500, protein := 25, carbs := 35, fat := 45 } ∧
    calculateWeeklyAverages (loadWeeklyData 100
        { mealEntries := .arr [demoW1, demoW2], userGoals := .absent, writeFails := false }) =
      { calories := 0, protein := 0, carbs := 0, fat := 0 } := by
  constructor
  · have h := weeklyAverages_only_days_with_entries.1 [demoW1, demoW2] .absent false 1 0 1
      (by decide) (by decide) (by decide)
      ⟨demoW1, by decide, rfl⟩ ⟨demoW2, by decide, rfl⟩
      (by
        intro m hm
        rcases List.mem_cons.mp hm with rfl | hm'
        · exact Or.inl rfl
        · rcases List.mem_cons.mp hm' with rfl | hm''
          · exact Or.inr rfl
          · simp at hm'')
    rw [h]
    norm_num [dailyField, demoW1, demoW2, jsRoundQ]
  · exact weeklyAverages_only_days_with_entries.2 [demoW1, demoW2] .absent false 100
      (by decide)

end MealApp
